import Mathlib

/-
Verification development for the claude-expense-tracker repository.

The TypeScript sources are shallowly embedded: JavaScript numbers are
modelled as rationals (ℚ), strings as Lean `String`, records as
structures, and fallible operations as `Option`.  Each definition below
names the source function it embeds.
-/

/-- Category of an expense: the fixed closed set from `src/types/expense.ts`,
in the declaration order of the `categoryBreakdown` record literal in
`src/utils/calculations.ts` (which is the `Object.keys` iteration order). -/
inductive ExpenseCategory where
  | Food
  | Transportation
  | Entertainment
  | Shopping
  | Bills
  | Other
deriving DecidableEq, Repr

/-- Enumeration order of the six category buckets, as iterated by
`Object.keys(categoryBreakdown)` in `src/utils/calculations.ts` lines 38-43. -/
def allCategories : List ExpenseCategory :=
  [.Food, .Transportation, .Entertainment, .Shopping, .Bills, .Other]

/-- The `Expense` record from `src/types/expense.ts`.  Amounts (JS numbers)
are modelled as rationals; dates and timestamps are kept as the strings the
code stores. -/
structure Expense where
  id : String
  date : String
  amount : ℚ
  category : ExpenseCategory
  description : String
  createdAt : String
  updatedAt : String
deriving DecidableEq, Repr

/-- The `SpendingSummary` record from `src/types/expense.ts`; the
`categoryBreakdown` record is modelled as a function from the six
categories. -/
structure SpendingSummary where
  totalSpending : ℚ
  monthlySpending : ℚ
  categoryBreakdown : ExpenseCategory → ℚ
  topCategory : Option (ExpenseCategory × ℚ)

/-- The category-bucket accumulation of `src/utils/calculations.ts` lines
21-32: start every bucket at 0 and add each expense's amount to its
category's bucket (`categoryBreakdown[expense.category] += expense.amount`). -/
def categoryBreakdown (es : List Expense) : ExpenseCategory → ℚ :=
  es.foldl (fun b e c => if c = e.category then b c + e.amount else b c) (fun _ => 0)

/-- The top-category scan of `src/utils/calculations.ts` lines 35-43: walk the
buckets in enumeration order, carrying `maxAmount` (initially 0) and
`topCategory` (initially `null`), replacing both whenever the current bucket is
strictly greater than `maxAmount`. -/
def topScan (f : ExpenseCategory → ℚ) :
    List ExpenseCategory → ℚ × Option (ExpenseCategory × ℚ) →
    ℚ × Option (ExpenseCategory × ℚ)
  | [], s => s
  | c :: cs, (m, t) => topScan f cs (if f c > m then (f c, some (c, f c)) else (m, t))

/-- The function `calculateSpendingSummary` of `src/utils/calculations.ts`.
The date-fns test `isWithinInterval(new Date(expense.date), currentMonth)` is
abstracted into the boolean parameter `inCurrentMonth` on the stored date
string; everything else follows the source line by line. -/
def calculateSpendingSummary (inCurrentMonth : String → Bool) (es : List Expense) :
    SpendingSummary :=
  { totalSpending := es.foldl (fun s e => s + e.amount) 0
    monthlySpending :=
      (es.filter (fun e => inCurrentMonth e.date)).foldl (fun s e => s + e.amount) 0
    categoryBreakdown := categoryBreakdown es
    topCategory := (topScan (categoryBreakdown es) allCategories (0, none)).2 }

/-- Sample expense used to instantiate the aggregation theorems. -/
def wFood : Expense :=
  { id := "1", date := "2025-01-01", amount := 5, category := .Food,
    description := "lunch", createdAt := "t", updatedAt := "t" }

/-- The `Array.prototype.join(sep)` operation used by both CSV generators. -/
def joinWith (sep : String) : List String → String
  | [] => ""
  | [x] => x
  | x :: xs => x ++ sep ++ joinWith sep xs

/-- The rendering of the six category labels (the string literals of
`src/types/expense.ts`). -/
def categoryName : ExpenseCategory → String
  | .Food => "Food"
  | .Transportation => "Transportation"
  | .Entertainment => "Entertainment"
  | .Shopping => "Shopping"
  | .Bills => "Bills"
  | .Other => "Other"

/-- Least power of ten divisible by `d`, if one exists among small exponents:
used to print the finite decimal expansion of a rational. -/
def decExp (d : Nat) : Option Nat :=
  (List.range 128).find? (fun k => 10 ^ k % d = 0)

/-- Models `Number.prototype.toString` on the rationals standing in for JS
numbers (`expense.amount.toString()` in `ExportModal.tsx`): integers print
without a decimal point, finite decimal fractions with one; shortest-double
rendering subtleties of binary floats are outside the model. -/
def numToString (q : ℚ) : String :=
  match decExp q.den with
  | some 0 => toString q.num
  | some (k + 1) =>
      let m := k + 1
      let scaled := q.num.natAbs * ((10 ^ m) / q.den)
      let ds := (toString scaled).data
      let ds := if ds.length ≤ m then List.replicate (m + 1 - ds.length) '0' ++ ds else ds
      (if q.num < 0 then "-" else "") ++ String.mk (ds.take (ds.length - m)) ++ "." ++
        String.mk (ds.drop (ds.length - m))
  | none => toString q.num ++ "/" ++ toString q.den

/-- Models `Number.prototype.toFixed(2)` (`expense.amount.toFixed(2)` in
`src/utils/export.ts`): round to the nearest hundredth, half away from zero,
and print with exactly two decimals; binary-float tie quirks are outside the
model. -/
def toFixed2 (q : ℚ) : String :=
  let n : Nat := (q.num.natAbs * 200 + q.den) / (2 * q.den)
  let ds := (toString n).data
  let ds := if ds.length ≤ 2 then List.replicate (3 - ds.length) '0' ++ ds else ds
  (if q.num < 0 then "-" else "") ++ String.mk (ds.take (ds.length - 2)) ++ "." ++
    String.mk (ds.drop (ds.length - 2))

/-- Models `format(new Date(expense.date), 'dd/MM/yyyy')` from
`src/utils/export.ts` on ISO `YYYY-MM-DD...` date strings: rearrange the three
components (time zones are outside the model). -/
def formatDDMMYYYY (s : String) : String :=
  String.mk ((s.data.drop 8).take 2) ++ "/" ++ String.mk ((s.data.drop 5).take 2) ++ "/" ++
    String.mk (s.data.take 4)

/-- The character-level effect of `description.replace(/"/g, '""')`: every
double quote is doubled. -/
def escapeList : List Char → List Char
  | [] => []
  | c :: cs => if c = '"' then '"' :: '"' :: escapeList cs else c :: escapeList cs

/-- The quoted description field both CSV generators emit:
`"${expense.description.replace(/"/g, '""')}"`. -/
def quoteField (s : String) : String :=
  "\"" ++ String.mk (escapeList s.data) ++ "\""

/-- One CSV row of `generateCSV` in `src/components/ExportModal.tsx` lines
71-76: raw date, category, `amount.toString()`, quoted description, joined by
commas. -/
def modalCsvRow (e : Expense) : String :=
  joinWith "," [e.date, categoryName e.category, numToString e.amount, quoteField e.description]

/-- The header row of `generateCSV` in `src/components/ExportModal.tsx`
line 70. -/
def csvHeader : String :=
  joinWith "," ["Date", "Category", "Amount", "Description"]

/-- The CSV text of `generateCSV` in `src/components/ExportModal.tsx` lines
69-79: header then one row per expense, joined by newlines. -/
def generateCSV (es : List Expense) : String :=
  joinWith "\n" (csvHeader :: es.map modalCsvRow)

/-- The header row of `exportToCSV` in `src/utils/export.ts` line 12. -/
def exportCsvHeader : String :=
  joinWith "," ["Date", "Category", "Amount (GBP)", "Description"]

/-- One CSV row of `exportToCSV` in `src/utils/export.ts` lines 15-22:
reformatted date, category, `amount.toFixed(2)`, quoted description. -/
def exportCsvRow (e : Expense) : String :=
  joinWith ","
    [formatDDMMYYYY e.date, categoryName e.category, toFixed2 e.amount, quoteField e.description]

/-- The CSV text built by `exportToCSV` in `src/utils/export.ts` lines 5-25:
`none` models the early return (with an alert) on an empty list, otherwise the
header and one row per expense joined by newlines. -/
def exportToCSVContent (es : List Expense) : Option String :=
  if es.isEmpty then none
  else some (joinWith "\n" (exportCsvHeader :: es.map exportCsvRow))

/-- Text of a string up to (not including) its first newline. -/
def firstLine (s : String) : String :=
  String.mk (s.data.takeWhile (fun c => c ≠ '\n'))

/-- Prefix a character onto the first chunk of a split. -/
def consHead (c : Char) : List (List Char) → List (List Char)
  | [] => [[c]]
  | h :: t => (c :: h) :: t

/-- Split a character list at newlines (the `n+1` chunks of a text with `n`
newline characters). -/
def splitLinesList : List Char → List (List Char)
  | [] => [[]]
  | c :: cs => if c = '\n' then [] :: splitLinesList cs else consHead c (splitLinesList cs)

/-- Split a string into its newline-separated lines. -/
def splitLines (s : String) : List String :=
  (splitLinesList s.data).map String.mk

/-- The RFC4180 reading of the interior of a quoted field, after the opening
quote: a doubled quote contributes one quote character, a lone quote closes
the field (trailing text would be malformed), anything else is literal. -/
def unquoteAux : List Char → Option (List Char)
  | [] => none
  | ['"'] => some []
  | '"' :: c₂ :: cs => if c₂ = '"' then (unquoteAux cs).map (fun l => '"' :: l) else none
  | c :: cs => (unquoteAux cs).map (fun l => c :: l)

/-- A standard (RFC4180) CSV reader applied to one quoted field: strip the
outer quotes and halve the doubled interior quotes, failing on malformed
input. -/
def parseQuotedField (s : String) : Option String :=
  match s.data with
  | '"' :: rest => (unquoteAux rest).map String.mk
  | _ => none

/-- Decimal digits folded into a natural number, most significant first. -/
def digitsToNat (l : List Char) : Nat :=
  l.foldl (fun n c => 10 * n + (c.toNat - 48)) 0

/-- Unsigned part of the JavaScript `parseFloat` grammar: longest prefix of
digits, an optional decimal point, more digits; `none` when no digit at all
was consumed (the `NaN` outcome). -/
def parseUnsigned (l : List Char) : Option ℚ :=
  let intDigits := l.takeWhile Char.isDigit
  let rest := l.dropWhile Char.isDigit
  let fracDigits := match rest with
    | '.' :: t => t.takeWhile Char.isDigit
    | _ => []
  if intDigits = [] ∧ fracDigits = [] then none
  else some (mkRat (Int.ofNat
    (digitsToNat intDigits * 10 ^ fracDigits.length + digitsToNat fracDigits))
    (10 ^ fracDigits.length))

/-- Signed part of the `parseFloat` grammar: an optional leading sign before
the unsigned number. -/
def parseSigned : List Char → Option ℚ
  | [] => none
  | c :: t =>
    if c = '-' then (parseUnsigned t).map Neg.neg
    else if c = '+' then parseUnsigned t
    else parseUnsigned (c :: t)

/-- Models JavaScript `parseFloat`: skip leading whitespace, read an optional
sign and then the longest decimal-number prefix; `none` models `NaN`.
Exponent notation and `Infinity` are outside the model. -/
def jsParseFloat (s : String) : Option ℚ :=
  parseSigned (s.data.dropWhile Char.isWhitespace)

/-- The cleaning step `value.replace(/[^\d.]/g, '')` of `parseCurrency`
(`src/utils/currency.ts`, quoted in `src/PROJECT_SUMMARY.md`): keep only
digits and decimal points. -/
def stripNonNumeric (s : String) : String :=
  String.mk (s.data.filter (fun c => c.isDigit || c = '.'))

/-- The function `parseCurrency` of `src/utils/currency.ts` (quoted in
`src/PROJECT_SUMMARY.md` lines 539-544): strip every character but digits and
decimal points, `parseFloat` the remainder, and map `NaN` to 0. -/
def parseCurrency (s : String) : ℚ :=
  match jsParseFloat (stripNonNumeric s) with
  | none => 0
  | some v => v

/-- The form data record `ExpenseFormData` from `src/types/expense.ts`. -/
structure ExpenseFormData where
  date : String
  amount : String
  category : String
  description : String

/-- Field-to-error-message mapping produced by the form validation; `none`
means the field is valid. -/
structure FormErrors where
  date : Option String := none
  amount : Option String := none
  category : Option String := none
  description : Option String := none
deriving DecidableEq, Repr

/-- Modelled from the spec: `src/utils/validation.ts` is absent from the
sources (only its tests in `src/__tests__/utils/calculations.test.ts` and its
callers import it).  The four field rules follow §4.1 of the spec: date
parsing (`new Date(...)`) and the current instant are abstracted as the
integer-timestamp parameters `parseDate` and `now`; amount parsing is the
`parseFloat` model `jsParseFloat`. -/
def validateExpenseForm (parseDate : String → Int) (now : Int) (f : ExpenseFormData) :
    FormErrors :=
  { date :=
      if f.date = "" then some "Date is required"
      else if parseDate f.date > now then some "Date cannot be in the future"
      else none
    amount :=
      if f.amount = "" then some "Amount is required"
      else match jsParseFloat f.amount with
        | none => some "Amount must be a positive number"
        | some v =>
          if v ≤ 0 then some "Amount must be a positive number"
          else if v > 1000000 then some "Amount seems unreasonably large"
          else none
    category :=
      if f.category = "" then some "Category is required" else none
    description :=
      if f.description.trim = "" then some "Description is required"
      else if f.description.length > 200 then
        some "Description must be less than 200 characters"
      else none }

/-- The partial-update record of `storageUtils.updateExpense`
(`Partial<Omit<Expense, 'id' | 'createdAt' | 'updatedAt'>>` in
`src/lib/storage.ts`): `id`, `createdAt` and `updatedAt` cannot occur. -/
structure ExpenseUpdates where
  date : Option String := none
  amount : Option ℚ := none
  category : Option ExpenseCategory := none
  description : Option String := none
deriving DecidableEq, Repr

/-- The record merge `{ ...expenses[index], ...updates, updatedAt: now }` of
`src/lib/storage.ts` lines 55-59: fields present in the update override the
old record, and `updatedAt` becomes the current timestamp. -/
def applyUpdates (e : Expense) (u : ExpenseUpdates) (now : String) : Expense :=
  { id := e.id
    date := u.date.getD e.date
    amount := u.amount.getD e.amount
    category := u.category.getD e.category
    description := u.description.getD e.description
    createdAt := e.createdAt
    updatedAt := now }

/-- The function `storageUtils.updateExpense` of `src/lib/storage.ts` lines
49-65 acting on the in-memory collection: locate the first record whose `id`
matches (`findIndex`); when none matches return the collection unchanged and
`null`, otherwise replace the located record in place by the merged record
and return it. -/
def updateExpense : List Expense → String → ExpenseUpdates → String →
    List Expense × Option Expense
  | [], _, _, _ => ([], none)
  | e :: es, i, u, now =>
    if e.id = i then (applyUpdates e u now :: es, some (applyUpdates e u now))
    else
      let r := updateExpense es i u now
      (e :: r.1, r.2)

/-- Second sample expense, with a distinct id, for the storage witness. -/
def wBills : Expense :=
  { id := "2", date := "2025-02-02", amount := 7, category := .Bills,
    description := "rent", createdAt := "t2", updatedAt := "t2" }

/-- Once the scan has recorded a top category it never returns to `null`. -/
lemma topScan_ne_none (f : ExpenseCategory → ℚ) :
    ∀ (cs : List ExpenseCategory) (m : ℚ) (c : ExpenseCategory) (a : ℚ),
      (topScan f cs (m, some (c, a))).2 ≠ none := by
  intro cs
  induction cs with
  | nil => intro m c a; simp [topScan]
  | cons c₀ cs ih =>
    intro m c a
    simp only [topScan]
    split
    · exact ih _ _ _
    · exact ih _ _ _

/-- The scan reports no top category exactly when every remaining bucket is
at most the running maximum. -/
lemma topScan_none_iff (f : ExpenseCategory → ℚ) :
    ∀ (cs : List ExpenseCategory) (m : ℚ),
      (topScan f cs (m, none)).2 = none ↔ ∀ c ∈ cs, f c ≤ m := by
  intro cs
  induction cs with
  | nil => intro m; simp [topScan]
  | cons c₀ cs ih =>
    intro m
    simp only [topScan]
    split
    · rename_i hgt
      constructor
      · intro h
        exact absurd h (topScan_ne_none f cs _ _ _)
      · intro h
        exact absurd (h c₀ (List.mem_cons_self c₀ cs)) (not_le.mpr hgt)
    · rename_i hle
      rw [ih m]
      constructor
      · intro h c hc
        rcases List.mem_cons.mp hc with rfl | hc
        · exact not_lt.mp hle
        · exact h c hc
      · intro h c hc
        exact h c (List.mem_cons_of_mem _ hc)

/-- If the scan ends on `some (c, a)` then either the accumulator already held
that answer and nothing in the remaining list beat the running maximum, or `c`
occurs in the remaining list, `a` is its bucket, it strictly beats the running
maximum and everything before it, and nothing after it exceeds it. -/
lemma topScan_some (f : ExpenseCategory → ℚ) :
    ∀ (cs : List ExpenseCategory) (m : ℚ) (t : Option (ExpenseCategory × ℚ))
      (c : ExpenseCategory) (a : ℚ),
      (topScan f cs (m, t)).2 = some (c, a) →
      (t = some (c, a) ∧ ∀ c' ∈ cs, f c' ≤ m) ∨
      (∃ p₁ p₂, cs = p₁ ++ c :: p₂ ∧ a = f c ∧ m < a ∧
        (∀ c' ∈ p₁, f c' < a) ∧ (∀ c' ∈ p₂, f c' ≤ a)) := by
  intro cs
  induction cs with
  | nil =>
    intro m t c a h
    left
    exact ⟨h, by simp⟩
  | cons c₀ cs ih =>
    intro m t c a h
    simp only [topScan] at h
    split at h
    · rename_i hgt
      rcases ih _ _ _ _ h with ⟨ht, hrest⟩ | ⟨p₁, p₂, hsplit, ha, hm, hpre, hpost⟩
      · -- the head update was the last one: c = c₀, a = f c₀
        obtain ⟨rfl, rfl⟩ : c₀ = c ∧ f c₀ = a := by
          cases ht
          exact ⟨rfl, rfl⟩
        right
        refine ⟨[], cs, by simp, rfl, hgt, by simp, ?_⟩
        intro c' hc'
        exact hrest c' hc'
      · -- a later element won; the head is strictly below it
        right
        refine ⟨c₀ :: p₁, p₂, by simp [hsplit], ha, lt_trans hgt hm, ?_, hpost⟩
        intro c' hc'
        rcases List.mem_cons.mp hc' with rfl | hc'
        · exact hm
        · exact hpre c' hc'
    · rename_i hle
      rcases ih _ _ _ _ h with ⟨ht, hrest⟩ | ⟨p₁, p₂, hsplit, ha, hm, hpre, hpost⟩
      · left
        refine ⟨ht, ?_⟩
        intro c' hc'
        rcases List.mem_cons.mp hc' with rfl | hc'
        · exact not_lt.mp hle
        · exact hrest c' hc'
      · right
        refine ⟨c₀ :: p₁, p₂, by simp [hsplit], ha, hm, ?_, hpost⟩
        intro c' hc'
        rcases List.mem_cons.mp hc' with rfl | hc'
        · exact lt_of_le_of_lt (not_lt.mp hle) hm
        · exact hpre c' hc'

/-- Every category occurs in the fixed enumeration order. -/
lemma mem_allCategories (c : ExpenseCategory) : c ∈ allCategories := by
  cases c <;> simp [allCategories]

/-- C1: `topCategory` is `null` exactly when no bucket exceeds 0; otherwise it
is the first category, in the enumeration order Food, Transportation,
Entertainment, Shopping, Bills, Other, whose bucket holds the strictly largest
value (every earlier bucket is strictly smaller, every later bucket no
larger), paired with that bucket's amount, which is positive. -/
theorem claim_C1_topCategory_scan (inCurrentMonth : String → Bool) (es : List Expense) :
    ((calculateSpendingSummary inCurrentMonth es).topCategory = none ↔
      ∀ c, (calculateSpendingSummary inCurrentMonth es).categoryBreakdown c ≤ 0) ∧
    (∀ c a, (calculateSpendingSummary inCurrentMonth es).topCategory = some (c, a) →
      a = (calculateSpendingSummary inCurrentMonth es).categoryBreakdown c ∧ 0 < a ∧
      ∃ p₁ p₂, allCategories = p₁ ++ c :: p₂ ∧
        (∀ c' ∈ p₁, (calculateSpendingSummary inCurrentMonth es).categoryBreakdown c' < a) ∧
        (∀ c' ∈ p₂, (calculateSpendingSummary inCurrentMonth es).categoryBreakdown c' ≤ a)) := by
  set f := categoryBreakdown es with hf
  have htop : (calculateSpendingSummary inCurrentMonth es).topCategory =
      (topScan f allCategories (0, none)).2 := rfl
  have hbd : (calculateSpendingSummary inCurrentMonth es).categoryBreakdown = f := rfl
  constructor
  · rw [htop, hbd, topScan_none_iff]
    constructor
    · intro h c
      exact h c (mem_allCategories c)
    · intro h c _
      exact h c
  · intro c a h
    rw [htop] at h
    rcases topScan_some f allCategories 0 none c a h with ⟨ht, _⟩ | ⟨p₁, p₂, hsplit, ha, hm, hpre, hpost⟩
    · exact absurd ht (by simp)
    · rw [hbd]
      exact ⟨ha, hm, p₁, p₂, hsplit, hpre, hpost⟩

/-- On the singleton list `[wFood]` the scan reports Food with amount 5. -/
lemma wFood_topCategory :
    (calculateSpendingSummary (fun _ => true) [wFood]).topCategory =
      some (.Food, 5) := by
  have hb : ∀ c, categoryBreakdown [wFood] c =
      if c = ExpenseCategory.Food then (5 : ℚ) else 0 := by
    intro c
    simp [categoryBreakdown, wFood]
  show (topScan (categoryBreakdown [wFood]) allCategories (0, none)).2 = some (.Food, 5)
  simp only [allCategories]
  rw [topScan, if_pos (by simp [hb])]
  rw [topScan, if_neg (by simp [hb])]
  rw [topScan, if_neg (by simp [hb])]
  rw [topScan, if_neg (by simp [hb])]
  rw [topScan, if_neg (by simp [hb])]
  rw [topScan, if_neg (by simp [hb])]
  rw [topScan, hb]
  simp

/-- Witness for C1 at a concrete input: a single Food expense of amount 5
makes Food the reported top category, and the theorem instantiates there. -/
theorem claim_C1_topCategory_scan_witness :
    (5 : ℚ) =
      (calculateSpendingSummary (fun _ => true) [wFood]).categoryBreakdown .Food ∧
    (0 : ℚ) < 5 ∧
    ∃ p₁ p₂, allCategories = p₁ ++ ExpenseCategory.Food :: p₂ ∧
      (∀ c' ∈ p₁,
        (calculateSpendingSummary (fun _ => true) [wFood]).categoryBreakdown c' < 5) ∧
      (∀ c' ∈ p₂,
        (calculateSpendingSummary (fun _ => true) [wFood]).categoryBreakdown c' ≤ 5) :=
  (claim_C1_topCategory_scan (fun _ => true) [wFood]).2 .Food 5 wFood_topCategory

/-- A string is its own list of characters. -/
lemma mk_data (s : String) : String.mk s.data = s := by
  cases s
  rfl

/-- A newline-free chunk is whole before the first newline. -/
lemma takeWhile_ne_nl (l₁ l₂ : List Char) (h : '\n' ∉ l₁) :
    (l₁ ++ '\n' :: l₂).takeWhile (fun c => c ≠ '\n') = l₁ := by
  induction l₁ with
  | nil => simp [List.takeWhile]
  | cons c cs ih =>
    rw [List.mem_cons, not_or] at h
    simp only [List.cons_append, List.takeWhile_cons]
    rw [if_pos (by simpa using fun hc => h.1 hc.symm)]
    rw [ih h.2]

/-- A newline-free list splits into a single line. -/
lemma splitLinesList_no_nl (l : List Char) (h : '\n' ∉ l) :
    splitLinesList l = [l] := by
  induction l with
  | nil => rfl
  | cons c cs ih =>
    rw [List.mem_cons, not_or] at h
    simp only [splitLinesList]
    rw [if_neg (fun hc => h.1 hc.symm), ih h.2]
    rfl

/-- Splitting at the first newline peels off the newline-free prefix. -/
lemma splitLinesList_append (l₁ l₂ : List Char) (h : '\n' ∉ l₁) :
    splitLinesList (l₁ ++ '\n' :: l₂) = l₁ :: splitLinesList l₂ := by
  induction l₁ with
  | nil => simp [splitLinesList]
  | cons c cs ih =>
    rw [List.mem_cons, not_or] at h
    simp only [List.cons_append, splitLinesList]
    rw [if_neg (fun hc => h.1 hc.symm)]
    simp only [List.append_eq]
    rw [ih h.2]
    rfl

/-- Character data of a newline join: the first chunk, a newline, the rest. -/
lemma joinWith_nl_data (x : String) (y : String) (t : List String) :
    (joinWith "\n" (x :: y :: t)).data =
      x.data ++ '\n' :: (joinWith "\n" (y :: t)).data := by
  show (x ++ "\n" ++ joinWith "\n" (y :: t)).data = _
  rw [String.data_append, String.data_append]
  simp

/-- Splitting a newline join of newline-free lines recovers the lines. -/
lemma splitLines_joinWith (l : List String) (hne : l ≠ [])
    (h : ∀ x ∈ l, '\n' ∉ x.data) :
    splitLines (joinWith "\n" l) = l := by
  induction l with
  | nil => exact absurd rfl hne
  | cons x t ih =>
    match t with
    | [] =>
      show (splitLinesList x.data).map String.mk = [x]
      rw [splitLinesList_no_nl x.data (h x (by simp))]
      simp [mk_data]
    | y :: t =>
      show (splitLinesList (joinWith "\n" (x :: y :: t)).data).map String.mk = x :: y :: t
      rw [joinWith_nl_data, splitLinesList_append _ _ (h x (by simp))]
      have ht : splitLines (joinWith "\n" (y :: t)) = y :: t := by
        refine ih (by simp) ?_
        intro z hz
        exact h z (List.mem_cons_of_mem _ hz)
      simp only [List.map_cons, mk_data]
      rw [show (splitLinesList (joinWith "\n" (y :: t)).data).map String.mk =
        splitLines (joinWith "\n" (y :: t)) from rfl, ht]

/-- Folding the running total of `calculateSpendingSummary` equals the initial
accumulator plus the sum of the amounts. -/
lemma foldl_amount (es : List Expense) :
    ∀ a : ℚ, es.foldl (fun s e => s + e.amount) a = a + (es.map (fun e => e.amount)).sum := by
  induction es with
  | nil => intro a; simp
  | cons e es ih =>
    intro a
    simp only [List.foldl_cons, List.map_cons, List.sum_cons]
    rw [ih]
    ring

/-- Summing the six buckets of the accumulation fold adds exactly the sum of
the folded amounts to the initial buckets. -/
lemma breakdown_fold_sum :
    ∀ (es : List Expense) (b : ExpenseCategory → ℚ),
      (allCategories.map
        (es.foldl (fun b e c => if c = e.category then b c + e.amount else b c) b)).sum =
      (allCategories.map b).sum + (es.map (fun e => e.amount)).sum := by
  intro es
  induction es with
  | nil => intro b; simp
  | cons e es ih =>
    intro b
    simp only [List.foldl_cons, List.map_cons, List.sum_cons]
    rw [ih]
    have hstep : (allCategories.map
        ((fun (b : ExpenseCategory → ℚ) (e : Expense) (c : ExpenseCategory) =>
          if c = e.category then b c + e.amount else b c) b e)).sum =
        (allCategories.map b).sum + e.amount := by
      cases h : e.category <;> (simp [allCategories, h]; try ring)
    rw [hstep]
    ring

/-- C9: the six category buckets partition the expense list, so their values
sum to `totalSpending`. -/
theorem claim_C9_buckets_sum_to_total (inCurrentMonth : String → Bool) (es : List Expense) :
    (calculateSpendingSummary inCurrentMonth es).categoryBreakdown .Food +
    (calculateSpendingSummary inCurrentMonth es).categoryBreakdown .Transportation +
    (calculateSpendingSummary inCurrentMonth es).categoryBreakdown .Entertainment +
    (calculateSpendingSummary inCurrentMonth es).categoryBreakdown .Shopping +
    (calculateSpendingSummary inCurrentMonth es).categoryBreakdown .Bills +
    (calculateSpendingSummary inCurrentMonth es).categoryBreakdown .Other =
    (calculateSpendingSummary inCurrentMonth es).totalSpending := by
  have hsum : (allCategories.map (categoryBreakdown es)).sum =
      (allCategories.map (fun _ => (0 : ℚ))).sum + (es.map (fun e => e.amount)).sum :=
    breakdown_fold_sum es (fun _ => 0)
  simp only [allCategories, List.map_cons, List.map_nil, List.sum_cons, List.sum_nil] at hsum
  show categoryBreakdown es .Food + categoryBreakdown es .Transportation +
      categoryBreakdown es .Entertainment + categoryBreakdown es .Shopping +
      categoryBreakdown es .Bills + categoryBreakdown es .Other =
      es.foldl (fun s e => s + e.amount) 0
  rw [foldl_amount]
  linarith

/-- C3: `calculateSpendingSummary([])` yields `totalSpending = 0`,
`monthlySpending = 0`, `topCategory = null`, and all six category buckets
equal to 0, whatever the current month is. -/
theorem claim_C3_empty_summary (inCurrentMonth : String → Bool) :
    (calculateSpendingSummary inCurrentMonth []).totalSpending = 0 ∧
    (calculateSpendingSummary inCurrentMonth []).monthlySpending = 0 ∧
    (calculateSpendingSummary inCurrentMonth []).topCategory = none ∧
    ∀ c, (calculateSpendingSummary inCurrentMonth []).categoryBreakdown c = 0 := by
  refine ⟨rfl, rfl, ?_, fun c => rfl⟩
  show (topScan (categoryBreakdown []) allCategories (0, none)).2 = none
  norm_num [topScan, categoryBreakdown, allCategories]

/-- Reading back an escaped character list (with the closing quote appended)
recovers the original characters. -/
lemma unquote_escape (l : List Char) :
    unquoteAux (escapeList l ++ ['"']) = some l := by
  induction l with
  | nil => rfl
  | cons c cs ih =>
    by_cases hc : c = '"'
    · subst hc
      show unquoteAux ('"' :: '"' :: (escapeList cs ++ ['"'])) = some ('"' :: cs)
      rw [show unquoteAux ('"' :: '"' :: (escapeList cs ++ ['"'])) =
          (unquoteAux (escapeList cs ++ ['"'])).map (fun l => '"' :: l) by
        simp [unquoteAux]]
      rw [ih]
      rfl
    · show unquoteAux ((if c = '"' then '"' :: '"' :: escapeList cs else c :: escapeList cs) ++ ['"']) =
        some (c :: cs)
      rw [if_neg hc]
      show unquoteAux (c :: (escapeList cs ++ ['"'])) = some (c :: cs)
      rcases hl : escapeList cs ++ ['"'] with _ | ⟨c₁, cs₁⟩
      · exact absurd hl (by simp)
      · rw [show unquoteAux (c :: c₁ :: cs₁) =
            (unquoteAux (c₁ :: cs₁)).map (fun l => c :: l) by
          simp [unquoteAux, hc]]
        rw [← hl, ih]
        rfl

/-- Character data of the quoted field: opening quote, escaped text, closing
quote. -/
lemma quoteField_data (s : String) :
    (quoteField s).data = '"' :: (escapeList s.data ++ ['"']) := by
  show (("\"" ++ String.mk (escapeList s.data)) ++ "\"").data = _
  rw [String.data_append, String.data_append]
  rfl

/-- C5: for every expense description containing double quotes, the CSV
export's quoted field (quotes doubled) parses back to exactly the original
description under a standard RFC4180 reader. -/
theorem claim_C5_quote_roundtrip (d : String) (h : '"' ∈ d.data) :
    parseQuotedField (quoteField d) = some d := by
  have hdata := quoteField_data d
  show (match (quoteField d).data with
    | '"' :: rest => (unquoteAux rest).map String.mk
    | _ => none) = some d
  rw [hdata]
  show (unquoteAux (escapeList d.data ++ ['"'])).map String.mk = some d
  rw [unquote_escape]
  simp [mk_data]

/-- Witness for C5: the description `say "hi"` contains a double quote and
round-trips through the quoted CSV field. -/
theorem claim_C5_quote_roundtrip_witness :
    '"' ∈ ("say \"hi\"" : String).data ∧
    parseQuotedField (quoteField "say \"hi\"") = some "say \"hi\"" :=
  ⟨by decide, claim_C5_quote_roundtrip "say \"hi\"" (by decide)⟩

/-- Counterexample to C2 as stated: on a one-expense list the CSV text built
by `exportToCSV` (`src/utils/export.ts`) has first line
`Date,Category,Amount (GBP),Description`, not `Date,Category,Amount,Description`. -/
theorem claim_C2_header_counterexample :
    (exportToCSVContent [wFood]).map firstLine =
      some "Date,Category,Amount (GBP),Description" ∧
    (exportToCSVContent [wFood]).map firstLine ≠
      some "Date,Category,Amount,Description" := by
  constructor
  · decide
  · decide

/-- C2 as amended: for every non-empty expense list whose rows contain no
newline characters, the modal generator `generateCSV` produces exactly the
header line `Date,Category,Amount,Description` followed by one row per
expense, while `exportToCSV` produces the header
`Date,Category,Amount (GBP),Description` followed by one row per expense. -/
theorem claim_C2_amended_header_rows (es : List Expense) (hne : es ≠ [])
    (hmodal : ∀ e ∈ es, '\n' ∉ (modalCsvRow e).data)
    (hexp : ∀ e ∈ es, '\n' ∉ (exportCsvRow e).data) :
    splitLines (generateCSV es) =
      "Date,Category,Amount,Description" :: es.map modalCsvRow ∧
    (exportToCSVContent es).map splitLines =
      some ("Date,Category,Amount (GBP),Description" :: es.map exportCsvRow) := by
  have hch : csvHeader = "Date,Category,Amount,Description" := by decide
  have heh : exportCsvHeader = "Date,Category,Amount (GBP),Description" := by decide
  constructor
  · rw [← hch]
    apply splitLines_joinWith _ (by simp)
    intro x hx
    rcases List.mem_cons.mp hx with rfl | hx
    · decide
    · rcases List.mem_map.mp hx with ⟨e, he, rfl⟩
      exact hmodal e he
  · have hsome : exportToCSVContent es =
        some (joinWith "\n" (exportCsvHeader :: es.map exportCsvRow)) := by
      rw [exportToCSVContent, if_neg (by simp [hne])]
    rw [hsome]
    show some (splitLines (joinWith "\n" (exportCsvHeader :: es.map exportCsvRow))) = _
    rw [← heh]
    congr 1
    apply splitLines_joinWith _ (by simp)
    intro x hx
    rcases List.mem_cons.mp hx with rfl | hx
    · decide
    · rcases List.mem_map.mp hx with ⟨e, he, rfl⟩
      exact hexp e he

/-- Witness for the amended C2 on the one-element list `[wFood]`. -/
theorem claim_C2_amended_header_rows_witness :
    splitLines (generateCSV [wFood]) =
      "Date,Category,Amount,Description" :: [wFood].map modalCsvRow ∧
    (exportToCSVContent [wFood]).map splitLines =
      some ("Date,Category,Amount (GBP),Description" :: [wFood].map exportCsvRow) :=
  claim_C2_amended_header_rows [wFood] (by simp) (by decide) (by decide)

/-- C7: `parseCurrency` strips everything but digits and decimal points,
returns what the remainder `parseFloat`s to, and 0 when that is `NaN`; the
stripping means non-numeric characters are irrelevant, and the documented
examples evaluate as stated. -/
theorem claim_C7_parseCurrency_spec (s : String) :
    parseCurrency s = (jsParseFloat (stripNonNumeric s)).getD 0 ∧
    parseCurrency (stripNonNumeric s) = parseCurrency s ∧
    parseCurrency "" = 0 ∧ parseCurrency "abc" = 0 ∧ parseCurrency "." = 0 ∧
    parseCurrency ".." = 0 ∧ parseCurrency "£1,234.56" = 1234.56 := by
  refine ⟨?_, ?_, by decide, by decide, by decide, by decide, ?_⟩
  · cases h : jsParseFloat (stripNonNumeric s) <;> simp [parseCurrency, h]
  · have hidem : stripNonNumeric (stripNonNumeric s) = stripNonNumeric s := by
      simp [stripNonNumeric, List.filter_filter]
    unfold parseCurrency
    rw [hidem]
  · have h : parseCurrency "£1,234.56" = mkRat 123456 100 := by decide
    rw [h, Rat.mkRat_eq_div]
    norm_num

/-- A successfully parsed unsigned number is non-negative. -/
lemma parseUnsigned_nonneg (l : List Char) (q : ℚ) (h : parseUnsigned l = some q) :
    0 ≤ q := by
  simp only [parseUnsigned] at h
  split_ifs at h
  rcases Option.some.inj h with rfl
  rw [Rat.mkRat_eq_div]
  apply div_nonneg
  · exact Int.cast_nonneg.mpr (Int.ofNat_nonneg _)
  · exact_mod_cast Nat.zero_le _

/-- Digits and dots are not whitespace. -/
lemma not_whitespace_of_digitdot (c : Char) (h : c.isDigit = true ∨ c = '.') :
    c.isWhitespace = false := by
  rcases h with hd | rfl
  · rcases hw : c.isWhitespace with _ | _
    · rfl
    · exfalso
      simp only [Char.isWhitespace, Bool.or_eq_true, decide_eq_true_eq] at hw
      have hvals : c = ' ' ∨ c = '\t' ∨ c = '\r' ∨ c = '\n' := by tauto
      rcases hvals with rfl | rfl | rfl | rfl <;> exact absurd hd (by decide)
  · decide

/-- A `parseFloat` of a text made of digits and dots only (no sign can occur)
never returns a negative value. -/
lemma jsParseFloat_nonneg_of_digitdot (l : List Char)
    (hl : ∀ c ∈ l, c.isDigit = true ∨ c = '.') :
    0 ≤ (jsParseFloat (String.mk l)).getD 0 := by
  show 0 ≤ (parseSigned (l.dropWhile Char.isWhitespace)).getD 0
  cases l with
  | nil => simp [parseSigned]
  | cons c t =>
    have hc := hl c (by simp)
    have hdrop : (c :: t).dropWhile Char.isWhitespace = c :: t := by
      rw [List.dropWhile_cons, not_whitespace_of_digitdot c hc]
      simp
    rw [hdrop]
    have hcm : ¬ c = '-' := by
      rintro rfl
      rcases hc with hd | hdot
      · exact absurd hd (by decide)
      · exact absurd hdot (by decide)
    have hcp : ¬ c = '+' := by
      rintro rfl
      rcases hc with hd | hdot
      · exact absurd hd (by decide)
      · exact absurd hdot (by decide)
    show 0 ≤ (parseSigned (c :: t)).getD 0
    rw [show parseSigned (c :: t) =
        if c = '-' then (parseUnsigned t).map Neg.neg
        else if c = '+' then parseUnsigned t
        else parseUnsigned (c :: t) from rfl]
    rw [if_neg hcm, if_neg hcp]
    cases hp : parseUnsigned (c :: t) with
    | none => simp
    | some q => simpa using parseUnsigned_nonneg _ _ hp

/-- C10: `parseCurrency` never returns a negative number, because minus signs
are stripped with the other non-numeric characters; in particular `£-50.00`
parses to 50, not -50. -/
theorem claim_C10_parseCurrency_nonneg (s : String) :
    0 ≤ parseCurrency s ∧ parseCurrency "£-50.00" = 50 := by
  constructor
  · have hl : ∀ c ∈ (stripNonNumeric s).data, c.isDigit = true ∨ c = '.' := by
      intro c hc
      have hmem := List.mem_filter.mp hc
      simpa using hmem.2
    have h := jsParseFloat_nonneg_of_digitdot (stripNonNumeric s).data hl
    rw [mk_data] at h
    have heq : parseCurrency s = (jsParseFloat (stripNonNumeric s)).getD 0 := by
      cases hj : jsParseFloat (stripNonNumeric s) <;> simp [parseCurrency, hj]
    rw [heq]
    exact h
  · decide

/-- C4: the amount rule of `validateExpenseForm`: an empty amount gives
`Amount is required`; an unparseable or non-positive amount gives
`Amount must be a positive number`; a value above 1,000,000 gives
`Amount seems unreasonably large`; every value in `(0, 1000000]` gives no
amount error. -/
theorem claim_C4_amount_rule (parseDate : String → Int) (now : Int) (f : ExpenseFormData) :
    (f.amount = "" →
      (validateExpenseForm parseDate now f).amount = some "Amount is required") ∧
    (f.amount ≠ "" → jsParseFloat f.amount = none →
      (validateExpenseForm parseDate now f).amount = some "Amount must be a positive number") ∧
    (∀ v, f.amount ≠ "" → jsParseFloat f.amount = some v → v ≤ 0 →
      (validateExpenseForm parseDate now f).amount = some "Amount must be a positive number") ∧
    (∀ v, f.amount ≠ "" → jsParseFloat f.amount = some v → 1000000 < v →
      (validateExpenseForm parseDate now f).amount = some "Amount seems unreasonably large") ∧
    (∀ v, f.amount ≠ "" → jsParseFloat f.amount = some v → 0 < v → v ≤ 1000000 →
      (validateExpenseForm parseDate now f).amount = none) := by
  refine ⟨?_, ?_, ?_, ?_, ?_⟩
  · intro h
    simp [validateExpenseForm, h]
  · intro h hp
    simp [validateExpenseForm, h, hp]
  · intro v h hp hv
    simp [validateExpenseForm, h, hp, hv]
  · intro v h hp hv
    have h0 : (0 : ℚ) < v := lt_trans (by norm_num) hv
    simp [validateExpenseForm, h, hp, not_le.mpr h0, hv]
  · intro v h hp hv hv'
    simp [validateExpenseForm, h, hp, not_le.mpr hv, not_lt.mpr hv']

/-- Witness for C4: the boundary amount `1000000` is accepted. -/
theorem claim_C4_amount_rule_witness :
    (validateExpenseForm (fun _ => 0) 0
      { date := "2025-01-01", amount := "1000000", category := "Food",
        description := "ok" }).amount = none :=
  (claim_C4_amount_rule (fun _ => 0) 0
    { date := "2025-01-01", amount := "1000000", category := "Food",
      description := "ok" }).2.2.2.2 1000000
    (by decide) (by decide) (by decide) (by decide)

/-- C6: the date rule of `validateExpenseForm`: an empty date gives
`Date is required`; a date parsing strictly past the current instant gives
`Date cannot be in the future`; today and all past dates give no date
error. -/
theorem claim_C6_date_rule (parseDate : String → Int) (now : Int) (f : ExpenseFormData) :
    (f.date = "" →
      (validateExpenseForm parseDate now f).date = some "Date is required") ∧
    (f.date ≠ "" → now < parseDate f.date →
      (validateExpenseForm parseDate now f).date = some "Date cannot be in the future") ∧
    (f.date ≠ "" → parseDate f.date ≤ now →
      (validateExpenseForm parseDate now f).date = none) := by
  refine ⟨?_, ?_, ?_⟩
  · intro h
    simp [validateExpenseForm, h]
  · intro h hlt
    simp [validateExpenseForm, h, hlt]
  · intro h hle
    simp [validateExpenseForm, h, not_lt.mpr hle]

/-- Witness for C6: a past date (timestamp below the current instant) passes
validation. -/
theorem claim_C6_date_rule_witness :
    (validateExpenseForm (fun _ => 100) 200
      { date := "2020-01-01", amount := "50", category := "Food",
        description := "ok" }).date = none :=
  (claim_C6_date_rule (fun _ => 100) 200
    { date := "2020-01-01", amount := "50", category := "Food",
      description := "ok" }).2.2 (by decide) (by decide)

/-- C8: when some record carries the requested id, `updateExpense` splits the
collection around the first such record, replaces exactly that record by the
merged one — whose `id` and `createdAt` are those of the old record, whose
`updatedAt` is the fresh timestamp, and whose remaining fields change only
when the update supplies them — and leaves every record before and after it
unchanged. -/
theorem claim_C8_update_frame (es : List Expense) (i : String) (u : ExpenseUpdates)
    (now : String) (h : ∃ e ∈ es, e.id = i) :
    ∃ pre e post,
      es = pre ++ e :: post ∧ e.id = i ∧ (∀ x ∈ pre, x.id ≠ i) ∧
      (updateExpense es i u now).1 = pre ++ applyUpdates e u now :: post ∧
      (updateExpense es i u now).2 = some (applyUpdates e u now) ∧
      (applyUpdates e u now).id = e.id ∧
      (applyUpdates e u now).createdAt = e.createdAt ∧
      (applyUpdates e u now).updatedAt = now ∧
      (u.date = none → (applyUpdates e u now).date = e.date) ∧
      (u.amount = none → (applyUpdates e u now).amount = e.amount) ∧
      (u.category = none → (applyUpdates e u now).category = e.category) ∧
      (u.description = none → (applyUpdates e u now).description = e.description) := by
  induction es with
  | nil => simp at h
  | cons e₀ es ih =>
    by_cases he : e₀.id = i
    · refine ⟨[], e₀, es, by simp, he, by simp, ?_, ?_, rfl, rfl, rfl, ?_, ?_, ?_, ?_⟩
      · show (updateExpense (e₀ :: es) i u now).1 = applyUpdates e₀ u now :: es
        rw [updateExpense, if_pos he]
      · show (updateExpense (e₀ :: es) i u now).2 = some (applyUpdates e₀ u now)
        rw [updateExpense, if_pos he]
      · intro hu
        simp [applyUpdates, hu]
      · intro hu
        simp [applyUpdates, hu]
      · intro hu
        simp [applyUpdates, hu]
      · intro hu
        simp [applyUpdates, hu]
    · have htail : ∃ e ∈ es, e.id = i := by
        rcases h with ⟨e, he', hid⟩
        rcases List.mem_cons.mp he' with rfl | he'
        · exact absurd hid he
        · exact ⟨e, he', hid⟩
      rcases ih htail with
        ⟨pre, e, post, hsplit, hid, hpre, h1, h2, hfid, hfcr, hfup, hfd, hfa, hfc, hfdesc⟩
      refine ⟨e₀ :: pre, e, post, by rw [hsplit]; rfl, hid, ?_, ?_, ?_,
        hfid, hfcr, hfup, hfd, hfa, hfc, hfdesc⟩
      · intro x hx
        rcases List.mem_cons.mp hx with rfl | hx
        · exact he
        · exact hpre x hx
      · show (updateExpense (e₀ :: es) i u now).1 = (e₀ :: pre) ++ applyUpdates e u now :: post
        rw [updateExpense, if_neg he]
        simpa using h1
      · show (updateExpense (e₀ :: es) i u now).2 = some (applyUpdates e u now)
        rw [updateExpense, if_neg he]
        simpa using h2

/-- Witness for C8 on the two-element collection `[wFood, wBills]`, updating
the record with id `"2"`. -/
theorem claim_C8_update_frame_witness :
    ∃ pre e post,
      [wFood, wBills] = pre ++ e :: post ∧ e.id = "2" ∧ (∀ x ∈ pre, x.id ≠ "2") ∧
      (updateExpense [wFood, wBills] "2" { amount := some 9 } "t3").1 =
        pre ++ applyUpdates e { amount := some 9 } "t3" :: post ∧
      (updateExpense [wFood, wBills] "2" { amount := some 9 } "t3").2 =
        some (applyUpdates e { amount := some 9 } "t3") ∧
      (applyUpdates e { amount := some 9 } "t3").id = e.id ∧
      (applyUpdates e { amount := some 9 } "t3").createdAt = e.createdAt ∧
      (applyUpdates e { amount := some 9 } "t3").updatedAt = "t3" ∧
      ((ExpenseUpdates.date { amount := some 9 }) = none →
        (applyUpdates e { amount := some 9 } "t3").date = e.date) ∧
      ((ExpenseUpdates.amount { amount := some 9 }) = none →
        (applyUpdates e { amount := some 9 } "t3").amount = e.amount) ∧
      ((ExpenseUpdates.category { amount := some 9 }) = none →
        (applyUpdates e { amount := some 9 } "t3").category = e.category) ∧
      ((ExpenseUpdates.description { amount := some 9 }) = none →
        (applyUpdates e { amount := some 9 } "t3").description = e.description) :=
  claim_C8_update_frame [wFood, wBills] "2" { amount := some 9 } "t3"
    ⟨wBills, by simp, rfl⟩
